import Mathlib

/-
Verification of the interactive text-physics portfolio page.

The development shallowly embeds the page's core logic:
  * the responsive layout planner (getResponsiveConfig): size classes and the
    greedy word wrap of the fixed description sentence;
  * the glyph body factory (createLetterBodies): one rigid body per non-space
    character of the two title lines and the wrapped description lines;
  * the boundary manager (createWalls), the disturbance check
    (checkForMovement), the reset operation (resetText) and the resize
    handler (handleResize), modelled as pure transformers of a Scene value;
  * the subscription POST route with its e-mail regular-expression check.

JavaScript numbers are modelled as rationals, JavaScript strings as Lean
strings (the texts involved are ASCII, so lengths agree with UTF-16 lengths).
-/

set_option maxRecDepth 8000

namespace Me

/-- The hero description sentence of the page (the variant with the
subscription form). -/
def DESCRIPTION_TEXT : String :=
  "Hey! I'm a product engineer based in London, interested in agentic systems, design systems and bringing people joy through software. I studied comp sci @ UCL and work on everything front end @ codewords"

/-- The hero description sentence of the earlier page variant. -/
def DESCRIPTION_TEXT_A : String :=
  "I'm a product & software engineer interested in agentic systems, design systems. I studied comp sci @ UCL and work on everything front end @ CodeWords"

/-- Movement threshold of the disturbance check, in canvas units. -/
def MOVEMENT_THRESHOLD : ℚ := 5

/-- Splitting a character list at every space character, in the manner of the
JavaScript call split(' '): maximal runs between separators become the pieces,
and empty pieces are kept. -/
def splitWords : List Char → List (List Char)
  | [] => [[]]
  | c :: cs =>
    if c = ' ' then [] :: splitWords cs
    else
      match splitWords cs with
      | [] => [[c]]
      | w :: ws => (c :: w) :: ws

/-- Embedding of the JavaScript single-space split used on the description
text. -/
def jsSplit (s : String) : List String :=
  (splitWords s.data).map (fun l => String.mk l)

theorem splitWords_ne_nil (cs : List Char) : splitWords cs ≠ [] := by
  cases cs with
  | nil => simp [splitWords]
  | cons c cs =>
    by_cases h : c = ' '
    · simp [splitWords, h]
    · simp only [splitWords, if_neg h]
      cases hs : splitWords cs with
      | nil => simp
      | cons w ws => simp

theorem splitWords_append_space (a b : List Char) :
    splitWords (a ++ ' ' :: b) = splitWords a ++ splitWords b := by
  induction a with
  | nil => simp [splitWords]
  | cons c cs ih =>
    by_cases h : c = ' '
    · subst h
      simp [splitWords, ih]
    · simp only [List.cons_append, splitWords, if_neg h, List.append_eq]
      rw [ih]
      cases hs : splitWords cs with
      | nil => exact absurd hs (splitWords_ne_nil cs)
      | cons w ws => simp

theorem splitWords_no_space (cs : List Char) : ∀ l ∈ splitWords cs, ' ' ∉ l := by
  induction cs with
  | nil =>
    intro l hl
    simp [splitWords] at hl
    simp [hl]
  | cons c cs ih =>
    intro l hl
    by_cases h : c = ' '
    · simp only [splitWords, if_pos h] at hl
      rcases List.mem_cons.mp hl with h1 | h1
      · simp [h1]
      · exact ih l h1
    · simp only [splitWords, if_neg h] at hl
      cases hs : splitWords cs with
      | nil => exact absurd hs (splitWords_ne_nil cs)
      | cons w ws =>
        rw [hs] at hl
        rcases List.mem_cons.mp hl with h1 | h1
        · subst h1
          intro hsp
          rcases List.mem_cons.mp hsp with h2 | h2
          · exact h h2.symm
          · exact ih w (hs ▸ List.mem_cons_self w ws) h2
        · exact ih l (hs ▸ List.mem_cons_of_mem w h1)

theorem splitWords_of_no_space (cs : List Char) (h : ' ' ∉ cs) :
    splitWords cs = [cs] := by
  induction cs with
  | nil => rfl
  | cons c cs ih =>
    have hc : ¬ c = ' ' := by
      intro hc
      exact h (hc ▸ List.mem_cons_self c cs)
    have hcs : ' ' ∉ cs := fun hm => h (List.mem_cons_of_mem c hm)
    simp only [splitWords, if_neg hc, ih hcs]

theorem strData_append (a b : String) : (a ++ b).data = a.data ++ b.data :=
  String.data_append a b

theorem strMk_data (s : String) : String.mk s.data = s := by
  cases s
  rfl

theorem str_ne_empty_iff (s : String) : s ≠ "" ↔ s.data ≠ [] := by
  constructor
  · intro h hd
    exact h (by cases s with | mk l => cases hd; rfl)
  · intro h hs
    exact h (by cases hs; rfl)

theorem jsSplit_of_word (w : String) (hw : ' ' ∉ w.data) : jsSplit w = [w] := by
  unfold jsSplit
  rw [splitWords_of_no_space w.data hw]
  simp [strMk_data]

theorem jsSplit_append_word (a w : String) :
    jsSplit (a ++ " " ++ w) = jsSplit a ++ jsSplit w := by
  unfold jsSplit
  have hd : (a ++ " " ++ w).data = a.data ++ ' ' :: w.data := by
    rw [strData_append, strData_append]
    have : (" " : String).data = [' '] := rfl
    rw [this]
    simp
  rw [hd, splitWords_append_space, List.map_append]

theorem jsSplit_mem_no_space (s : String) : ∀ w ∈ jsSplit s, ' ' ∉ w.data := by
  intro w hw
  unfold jsSplit at hw
  rcases List.mem_map.mp hw with ⟨l, hl, hlw⟩
  subst hlw
  exact splitWords_no_space s.data l hl

/-- The greedy word-wrap loop of getResponsiveConfig: words are consumed left
to right; the current line grows while the tentative line (current line, a
space, then the next word) still fits within maxChars; otherwise the nonempty
current line is flushed and the next word starts a new line; a nonempty
remainder is flushed at the end. -/
def wrapLoop (maxChars : ℤ) : List String → String → List String → List String
  | [], currentLine, lines =>
    if currentLine = "" then lines else lines ++ [currentLine]
  | word :: ws, currentLine, lines =>
    let testLine := if currentLine = "" then word else currentLine ++ " " ++ word
    if (testLine.length : ℤ) ≤ maxChars then
      wrapLoop maxChars ws testLine lines
    else if currentLine = "" then
      wrapLoop maxChars ws word lines
    else
      wrapLoop maxChars ws word (lines ++ [currentLine])

/-- The word wrap as invoked by getResponsiveConfig: empty current line and no
flushed lines at the start. -/
def wrapWords (maxChars : ℤ) (ws : List String) : List String :=
  wrapLoop maxChars ws (String.mk []) []

theorem wrapLoop_join (maxChars : ℤ) :
    ∀ (ws : List String) (cur : String) (lines : List String),
      (∀ w ∈ ws, w ≠ "" ∧ ' ' ∉ w.data) →
      (wrapLoop maxChars ws cur lines).flatMap jsSplit =
        lines.flatMap jsSplit ++ (if cur = "" then [] else jsSplit cur) ++ ws := by
  intro ws
  induction ws with
  | nil =>
    intro cur lines _
    by_cases hc : cur = ""
    · simp [wrapLoop, hc]
    · simp [wrapLoop, hc]
  | cons w ws ih =>
    intro cur lines hws
    obtain ⟨hw_ne, hw_sp⟩ := hws w (List.mem_cons_self w ws)
    have hws' : ∀ x ∈ ws, x ≠ "" ∧ ' ' ∉ x.data :=
      fun x hx => hws x (List.mem_cons_of_mem w hx)
    have hw_split : jsSplit w = [w] := jsSplit_of_word w hw_sp
    by_cases hc : cur = ""
    · subst hc
      simp only [wrapLoop, eq_self_iff_true, if_true, ite_self]
      rw [ih w lines hws']
      simp [hw_ne, hw_split]
    · have htest_ne : cur ++ " " ++ w ≠ "" := by
        rw [str_ne_empty_iff]
        rw [strData_append, strData_append]
        have hsp : (" " : String).data = [' '] := rfl
        rw [hsp]
        simp
      simp only [wrapLoop, if_neg hc]
      by_cases hfit : (((cur ++ " " ++ w).length : ℤ) ≤ maxChars)
      · rw [if_pos hfit, ih (cur ++ " " ++ w) lines hws']
        rw [if_neg htest_ne, jsSplit_append_word, hw_split]
        simp
      · rw [if_neg hfit, ih w (lines ++ [cur]) hws']
        simp [hw_ne, hw_split, hc]

theorem wrapWords_join (maxChars : ℤ) (ws : List String)
    (h : ∀ w ∈ ws, w ≠ "" ∧ ' ' ∉ w.data) :
    (wrapWords maxChars ws).flatMap jsSplit = ws := by
  unfold wrapWords
  rw [wrapLoop_join maxChars ws (String.mk []) [] h]
  simp

theorem wrapLoop_mem (maxChars : ℤ) (ws₀ : List String) :
    ∀ (ws : List String) (cur : String) (lines : List String),
      (∀ l ∈ lines, (l.length : ℤ) ≤ maxChars ∨ l ∈ ws₀) →
      (cur = "" ∨ (cur.length : ℤ) ≤ maxChars ∨ cur ∈ ws₀) →
      (∀ x ∈ ws, x ∈ ws₀) →
      ∀ l ∈ wrapLoop maxChars ws cur lines, (l.length : ℤ) ≤ maxChars ∨ l ∈ ws₀ := by
  intro ws
  induction ws with
  | nil =>
    intro cur lines hlines hcur _ l hl
    by_cases hc : cur = ""
    · simp only [wrapLoop, if_pos hc] at hl
      exact hlines l hl
    · simp only [wrapLoop, if_neg hc] at hl
      rcases List.mem_append.mp hl with h1 | h1
      · exact hlines l h1
      · rcases List.mem_singleton.mp h1 with rfl
        rcases hcur with h2 | h2
        · exact absurd h2 hc
        · exact h2
  | cons w ws ih =>
    intro cur lines hlines hcur hws l hl
    have hw₀ : w ∈ ws₀ := hws w (List.mem_cons_self w ws)
    have hws' : ∀ x ∈ ws, x ∈ ws₀ := fun x hx => hws x (List.mem_cons_of_mem w hx)
    by_cases hc : cur = ""
    · simp only [wrapLoop, if_pos hc] at hl
      by_cases hfit : ((w.length : ℤ) ≤ maxChars)
      · rw [if_pos hfit] at hl
        exact ih w lines hlines (Or.inr (Or.inl hfit)) hws' l hl
      · rw [if_neg hfit] at hl
        exact ih w lines hlines (Or.inr (Or.inr hw₀)) hws' l hl
    · simp only [wrapLoop, if_neg hc] at hl
      by_cases hfit : (((cur ++ " " ++ w).length : ℤ) ≤ maxChars)
      · rw [if_pos hfit] at hl
        exact ih (cur ++ " " ++ w) lines hlines (Or.inr (Or.inl hfit)) hws' l hl
      · rw [if_neg hfit] at hl
        have hlines' : ∀ x ∈ lines ++ [cur], (x.length : ℤ) ≤ maxChars ∨ x ∈ ws₀ := by
          intro x hx
          rcases List.mem_append.mp hx with h1 | h1
          · exact hlines x h1
          · rcases List.mem_singleton.mp h1 with rfl
            rcases hcur with h2 | h2
            · exact absurd h2 hc
            · exact h2
        exact ih w (lines ++ [cur]) hlines' (Or.inr (Or.inr hw₀)) hws' l hl

theorem wrapWords_mem (maxChars : ℤ) (ws : List String) :
    ∀ l ∈ wrapWords maxChars ws, (l.length : ℤ) ≤ maxChars ∨ l ∈ ws := by
  unfold wrapWords
  exact wrapLoop_mem maxChars ws ws (String.mk []) []
    (by intro l hl; simp at hl) (Or.inl rfl) (fun x hx => hx)

/-- Title font size per responsive size class: mobile (width below 500),
tablet (width below 768), desktop otherwise. -/
def titleFontSizeFor (containerWidth : ℚ) : ℚ :=
  if containerWidth < 500 then 20 else if containerWidth < 768 then 18 else 16

/-- Description font size per responsive size class. -/
def descFontSizeFor (containerWidth : ℚ) : ℚ :=
  if containerWidth < 500 then 16 else if containerWidth < 768 then 15 else 14

/-- Title line height per responsive size class. -/
def lineHeightFor (containerWidth : ℚ) : ℚ :=
  if containerWidth < 500 then 28 else if containerWidth < 768 then 26 else 24

/-- Description line height per responsive size class. -/
def descLineHeightFor (containerWidth : ℚ) : ℚ :=
  if containerWidth < 500 then 24 else if containerWidth < 768 then 23 else 22

/-- Approximate average character width: the description font size times 0.62
(monospace approximation). -/
def charWidthFor (containerWidth : ℚ) : ℚ :=
  descFontSizeFor containerWidth * (62 / 100)

/-- Maximum number of characters per wrapped description line:
floor(containerWidth / charWidth) minus 2 (margin). -/
def maxCharsPerLineFor (containerWidth : ℚ) : ℤ :=
  ⌊containerWidth / charWidthFor containerWidth⌋ - 2

/-- Output of the responsive layout planner. -/
structure ResponsiveConfig where
  titleFontSize : ℚ
  descFontSize : ℚ
  lineHeight : ℚ
  descLineHeight : ℚ
  descriptionLines : List String

/-- Embedding of getResponsiveConfig, parameterised by the description
sentence (the two page variants differ only in that constant). -/
def getResponsiveConfigWith (text : String) (containerWidth : ℚ) : ResponsiveConfig :=
  { titleFontSize := titleFontSizeFor containerWidth
    descFontSize := descFontSizeFor containerWidth
    lineHeight := lineHeightFor containerWidth
    descLineHeight := descLineHeightFor containerWidth
    descriptionLines := wrapWords (maxCharsPerLineFor containerWidth) (jsSplit text) }

/-- The layout planner of the page variant with the subscription form. -/
def getResponsiveConfig (containerWidth : ℚ) : ResponsiveConfig :=
  getResponsiveConfigWith DESCRIPTION_TEXT containerWidth

/-- The layout planner of the earlier page variant. -/
def getResponsiveConfigA (containerWidth : ℚ) : ResponsiveConfig :=
  getResponsiveConfigWith DESCRIPTION_TEXT_A containerWidth

theorem descWords_ne_empty : ∀ w ∈ jsSplit DESCRIPTION_TEXT, w ≠ "" := by decide

theorem descWordsA_ne_empty : ∀ w ∈ jsSplit DESCRIPTION_TEXT_A, w ≠ "" := by decide

theorem descWords_good : ∀ w ∈ jsSplit DESCRIPTION_TEXT, w ≠ "" ∧ ' ' ∉ w.data :=
  fun w hw => ⟨descWords_ne_empty w hw, jsSplit_mem_no_space DESCRIPTION_TEXT w hw⟩

theorem descWordsA_good : ∀ w ∈ jsSplit DESCRIPTION_TEXT_A, w ≠ "" ∧ ' ' ∉ w.data :=
  fun w hw => ⟨descWordsA_ne_empty w hw, jsSplit_mem_no_space DESCRIPTION_TEXT_A w hw⟩

/-- C1: for every container width, the word wrap of the layout planner neither
reorders nor drops words: splitting each produced description line at single
spaces and concatenating the pieces in line order yields exactly the word
sequence of the fixed description text, in both page variants. -/
theorem layout_wrap_preserves_words (containerWidth : ℚ) :
    ((getResponsiveConfig containerWidth).descriptionLines.flatMap jsSplit =
      jsSplit DESCRIPTION_TEXT)
    ∧ ((getResponsiveConfigA containerWidth).descriptionLines.flatMap jsSplit =
      jsSplit DESCRIPTION_TEXT_A) :=
  ⟨wrapWords_join (maxCharsPerLineFor containerWidth) (jsSplit DESCRIPTION_TEXT) descWords_good,
   wrapWords_join (maxCharsPerLineFor containerWidth) (jsSplit DESCRIPTION_TEXT_A) descWordsA_good⟩

theorem wrapped_line_cases (text : String) (maxChars : ℤ)
    (hgood : ∀ w ∈ jsSplit text, w ≠ "" ∧ ' ' ∉ w.data) :
    ∀ l ∈ wrapWords maxChars (jsSplit text),
      (l.length : ℤ) ≤ maxChars ∨
        (maxChars < (l.length : ℤ) ∧ l ∈ jsSplit text ∧ ' ' ∉ l.data) := by
  intro l hl
  rcases wrapWords_mem maxChars (jsSplit text) l hl with h | h
  · exact Or.inl h
  · by_cases hlen : (l.length : ℤ) ≤ maxChars
    · exact Or.inl hlen
    · exact Or.inr ⟨lt_of_not_le hlen, h, (hgood l h).2⟩

/-- C2: for every container width at or above zero, every produced description
line fits within the computed max characters per line, except that a line may
be a single word of the original text (hence containing no space) whose own
length exceeds that maximum; such a word stands alone on its line, never
truncated or split. Both page variants. -/
theorem layout_lines_fit (containerWidth : ℚ) (_hw : 0 ≤ containerWidth) :
    (∀ l ∈ (getResponsiveConfig containerWidth).descriptionLines,
      (l.length : ℤ) ≤ maxCharsPerLineFor containerWidth ∨
        (maxCharsPerLineFor containerWidth < (l.length : ℤ) ∧
          l ∈ jsSplit DESCRIPTION_TEXT ∧ ' ' ∉ l.data))
    ∧ (∀ l ∈ (getResponsiveConfigA containerWidth).descriptionLines,
      (l.length : ℤ) ≤ maxCharsPerLineFor containerWidth ∨
        (maxCharsPerLineFor containerWidth < (l.length : ℤ) ∧
          l ∈ jsSplit DESCRIPTION_TEXT_A ∧ ' ' ∉ l.data)) :=
  ⟨wrapped_line_cases DESCRIPTION_TEXT (maxCharsPerLineFor containerWidth) descWords_good,
   wrapped_line_cases DESCRIPTION_TEXT_A (maxCharsPerLineFor containerWidth) descWordsA_good⟩

theorem layout_lines_fit_witness :
    (0 : ℚ) ≤ 600 ∧
      ∀ l ∈ (getResponsiveConfig 600).descriptionLines,
        (l.length : ℤ) ≤ maxCharsPerLineFor 600 ∨
          (maxCharsPerLineFor 600 < (l.length : ℤ) ∧
            l ∈ jsSplit DESCRIPTION_TEXT ∧ ' ' ∉ l.data) :=
  ⟨by norm_num, (layout_lines_fit 600 (by norm_num)).1⟩

/-- C8: the layout planner is deterministic and pure: two calls at equal
container widths produce identical font sizes, line heights, and identical
ordered sequences of wrapped description lines. -/
theorem layout_deterministic (w₁ w₂ : ℚ) (h : w₁ = w₂) :
    (getResponsiveConfig w₁).titleFontSize = (getResponsiveConfig w₂).titleFontSize ∧
    (getResponsiveConfig w₁).descFontSize = (getResponsiveConfig w₂).descFontSize ∧
    (getResponsiveConfig w₁).lineHeight = (getResponsiveConfig w₂).lineHeight ∧
    (getResponsiveConfig w₁).descLineHeight = (getResponsiveConfig w₂).descLineHeight ∧
    (getResponsiveConfig w₁).descriptionLines = (getResponsiveConfig w₂).descriptionLines := by
  subst h
  exact ⟨rfl, rfl, rfl, rfl, rfl⟩

theorem layout_deterministic_witness :
    (getResponsiveConfig 600).titleFontSize = (getResponsiveConfig 600).titleFontSize :=
  (layout_deterministic 600 600 rfl).1

/-- One glyph body together with its rendering metadata, as stored in
textBodiesRef: the physics body (pose and velocities), the drawn character,
its font size, the recorded initial position and the title role flag. -/
structure TextBody where
  px : ℚ
  py : ℚ
  angle : ℚ
  vx : ℚ
  vy : ℚ
  angularVelocity : ℚ
  char : Char
  fontSize : ℚ
  initialX : ℚ
  initialY : ℚ
  isTitle : Bool
deriving DecidableEq

/-- A freshly created rectangular glyph body: at rest at its layout position,
with angle and velocities zero. -/
def mkLetterBody (x y : ℚ) (char : Char) (fontSize : ℚ) (isTitle : Bool) : TextBody :=
  { px := x, py := y, angle := 0, vx := 0, vy := 0, angularVelocity := 0,
    char := char, fontSize := fontSize, initialX := x, initialY := y, isTitle := isTitle }

/-- The character walk of createLetterBodies over one line of text: the index
counter advances for every character, but a space creates no body; a non-space
character at index i becomes a body centred at startX + i * charWidth. -/
def lineBodiesAux (startX charWidth y fontSize : ℚ) (isTitle : Bool) :
    Nat → List Char → List TextBody
  | _, [] => []
  | i, c :: cs =>
    if c = ' ' then lineBodiesAux startX charWidth y fontSize isTitle (i + 1) cs
    else
      mkLetterBody (startX + (i : ℚ) * charWidth) y c fontSize isTitle ::
        lineBodiesAux startX charWidth y fontSize isTitle (i + 1) cs

/-- Bodies of one rendered line: the start X is the line origin plus half a
character width, as in createLetterBodies. -/
def lineBodies (offsetX y fontSize : ℚ) (isTitle : Bool) (text : String) : List TextBody :=
  lineBodiesAux (offsetX + fontSize * (62 / 100) / 2) (fontSize * (62 / 100)) y fontSize
    isTitle 0 text.data

/-- First fixed title line. -/
def TITLE_LINE1 : String := "AMMAN VEDI"

/-- Second fixed title line. -/
def TITLE_LINE2 : String := "PRODUCT ENGINEER"

/-- The full list of glyph bodies created by createLetterBodies for a given
container width and hero offset: the two fixed title lines at y = offsetY + 50
and one line height below, then each wrapped description line, starting 40
units below the two title lines and stepping by the description line height. -/
def createLetterBodiesList (containerWidth offsetX offsetY : ℚ) : List TextBody :=
  let config := getResponsiveConfig containerWidth
  let descStartY := offsetY + 50 + config.lineHeight * 2 + 40
  lineBodies offsetX (offsetY + 50) config.titleFontSize true TITLE_LINE1 ++
    lineBodies offsetX (offsetY + 50 + config.lineHeight) config.titleFontSize true TITLE_LINE2 ++
    (config.descriptionLines.enum.flatMap fun p =>
      lineBodies offsetX (descStartY + (p.1 : ℚ) * config.descLineHeight)
        config.descFontSize false p.2)

/-- One static boundary rectangle. -/
structure WallBody where
  x : ℚ
  y : ℚ
  width : ℚ
  height : ℚ
deriving DecidableEq

/-- The four boundary bodies of createWalls: floor far below the viewport
(extended height 2000), ceiling at the top, and left/right walls, each with
thickness 100 and overlapping past the nominal edges. -/
def wallBodies (width : ℚ) : List WallBody :=
  let wallThickness : ℚ := 100
  let extendedHeight : ℚ := 2000
  [ { x := width / 2, y := extendedHeight + wallThickness / 2,
      width := width * 2, height := wallThickness },
    { x := width / 2, y := -(wallThickness / 2),
      width := width * 2, height := wallThickness },
    { x := -(wallThickness / 2), y := extendedHeight / 2,
      width := wallThickness, height := extendedHeight * 2 },
    { x := width + wallThickness / 2, y := extendedHeight / 2,
      width := wallThickness, height := extendedHeight * 2 } ]

/-- The static circular pointer proxy body (only its position matters). -/
structure MouseBody where
  x : ℚ
  y : ℚ
deriving DecidableEq

/-- The mutable state of the physics scene: the glyph bodies, the boundary
bodies, the pointer proxy, the touched flag and the reset-button flag. -/
structure Scene where
  textBodies : List TextBody
  walls : List WallBody
  mouseBody : MouseBody
  hasBeenTouched : Bool
  showResetButton : Bool
deriving DecidableEq

/-- Effect of createWalls on the scene: the previous boundary bodies are
removed and replaced by the four new ones for the given width. -/
def createWallsScene (width : ℚ) (s : Scene) : Scene :=
  { s with walls := wallBodies width }

/-- Effect of createLetterBodies on the scene: the previous glyph bodies are
removed and replaced by the freshly computed ones. -/
def createLetterBodiesScene (containerWidth offsetX offsetY : ℚ) (s : Scene) : Scene :=
  { s with textBodies := createLetterBodiesList containerWidth offsetX offsetY }

/-- Reset of a single body in resetText: position back to the recorded initial
position, angle zero, linear and angular velocity zero; metadata untouched. -/
def resetBody (tb : TextBody) : TextBody :=
  { tb with
    px := tb.initialX
    py := tb.initialY
    angle := 0
    vx := 0
    vy := 0
    angularVelocity := 0 }

/-- The reset operation: every glyph body is snapped back to its initial pose,
the touched flag is cleared and the reset button is hidden. -/
def resetText (s : Scene) : Scene :=
  { s with
    textBodies := s.textBodies.map resetBody
    hasBeenTouched := false
    showResetButton := false }

/-- The per-body disturbance test of checkForMovement: absolute horizontal or
vertical displacement from the initial position strictly above the movement
threshold, or absolute angle strictly above 0.1 radian. -/
def bodyMoved (tb : TextBody) : Bool :=
  decide (MOVEMENT_THRESHOLD < |tb.px - tb.initialX|) ||
    decide (MOVEMENT_THRESHOLD < |tb.py - tb.initialY|) ||
    decide ((1 : ℚ) / 10 < |tb.angle|)

/-- The per-frame disturbance check: if any glyph body moved beyond the
threshold, the scene is marked touched and the reset button is shown;
otherwise nothing changes. -/
def checkForMovement (s : Scene) : Scene :=
  if s.textBodies.any bodyMoved then
    { s with hasBeenTouched := true, showResetButton := true }
  else s

/-- The resize handler: boundaries are always rebuilt for the new canvas
width; glyph bodies are rebuilt from the new hero rectangle only when the
scene has not been touched. -/
def handleResize (newCanvasWidth heroWidth heroLeft heroTop : ℚ) (s : Scene) : Scene :=
  let s1 := createWallsScene newCanvasWidth s
  if s1.hasBeenTouched then s1
  else createLetterBodiesScene heroWidth heroLeft heroTop s1

/-- The scene right after mount: walls and letter bodies created, pointer
proxy at the origin, touched flag false, reset button hidden. -/
def initScene (canvasWidth heroWidth heroLeft heroTop : ℚ) : Scene :=
  createLetterBodiesScene heroWidth heroLeft heroTop
    (createWallsScene canvasWidth
      { textBodies := [], walls := [], mouseBody := { x := 0, y := 0 },
        hasBeenTouched := false, showResetButton := false })

/-- The discrete events that mutate the scene after mount. -/
inductive SceneEvent where
  | frameCheck
  | reset
  | resize (newCanvasWidth heroWidth heroLeft heroTop : ℚ)
  | pointerMove (x y : ℚ)
deriving DecidableEq

/-- Scene transition for one event. -/
def step : SceneEvent → Scene → Scene
  | SceneEvent.frameCheck, s => checkForMovement s
  | SceneEvent.reset, s => resetText s
  | SceneEvent.resize cw hw hl ht, s => handleResize cw hw hl ht s
  | SceneEvent.pointerMove x y, s => { s with mouseBody := { x := x, y := y } }

/-- A demonstration body displaced horizontally by d from its initial
position, with zero angle and velocities. -/
def displacedBody (d : ℚ) : TextBody :=
  { px := 100 + d
    py := 50
    angle := 0
    vx := 0
    vy := 0
    angularVelocity := 0
    char := 'A'
    fontSize := 16
    initialX := 100
    initialY := 50
    isTitle := true }

/-- A demonstration scene holding exactly one displaced body, not yet
touched. -/
def displacedScene (d : ℚ) : Scene :=
  { textBodies := [displacedBody d]
    walls := []
    mouseBody := { x := 0, y := 0 }
    hasBeenTouched := false
    showResetButton := false }

/-- A demonstration scene already marked touched. -/
def touchedScene : Scene :=
  { textBodies := []
    walls := []
    mouseBody := { x := 0, y := 0 }
    hasBeenTouched := true
    showResetButton := true }

theorem bodyMoved_iff (tb : TextBody) :
    bodyMoved tb = true ↔
      (MOVEMENT_THRESHOLD < |tb.px - tb.initialX| ∨
        MOVEMENT_THRESHOLD < |tb.py - tb.initialY| ∨ (1 : ℚ) / 10 < |tb.angle|) := by
  simp [bodyMoved, or_assoc]

theorem bodyMoved_displaced_threshold :
    bodyMoved (displacedBody MOVEMENT_THRESHOLD) = false := by
  have h1 : (100 : ℚ) + MOVEMENT_THRESHOLD - 100 = 5 := by
    norm_num [MOVEMENT_THRESHOLD]
  have h2 : |(5 : ℚ)| = 5 := abs_of_pos (by norm_num)
  simp only [bodyMoved, displacedBody, h1, h2, sub_self, abs_zero]
  simp only [Bool.or_eq_false_iff, decide_eq_false_iff_not, MOVEMENT_THRESHOLD]
  norm_num

theorem bodyMoved_displaced_above (ε : ℚ) (hε : 0 < ε) :
    bodyMoved (displacedBody (MOVEMENT_THRESHOLD + ε)) = true := by
  rw [bodyMoved_iff]
  left
  simp only [displacedBody]
  rw [show (100 : ℚ) + (MOVEMENT_THRESHOLD + ε) - 100 = MOVEMENT_THRESHOLD + ε from by ring]
  rw [abs_of_pos (by norm_num [MOVEMENT_THRESHOLD]; linarith)]
  norm_num [MOVEMENT_THRESHOLD]
  linarith

/-- C3: the disturbance check marks a fresh (untouched) scene touched exactly
when some glyph body has horizontal or vertical displacement from its initial
position strictly greater than the 5-unit threshold, or absolute angle
strictly greater than 0.1 radian; in particular a body displaced by exactly
the threshold with zero angle does not trigger it, while a displacement of
threshold plus any positive epsilon does. -/
theorem movement_check_threshold :
    (∀ s : Scene, s.hasBeenTouched = false →
        ((checkForMovement s).hasBeenTouched = true ↔
          ∃ tb ∈ s.textBodies,
            MOVEMENT_THRESHOLD < |tb.px - tb.initialX| ∨
              MOVEMENT_THRESHOLD < |tb.py - tb.initialY| ∨
              (1 : ℚ) / 10 < |tb.angle|))
    ∧ (checkForMovement (displacedScene MOVEMENT_THRESHOLD)).hasBeenTouched = false
    ∧ (∀ ε : ℚ, 0 < ε →
        (checkForMovement (displacedScene (MOVEMENT_THRESHOLD + ε))).hasBeenTouched = true) := by
  refine ⟨?_, ?_, ?_⟩
  · intro s hs
    cases hany : s.textBodies.any bodyMoved with
    | true =>
      simp only [checkForMovement, hany, if_true]
      constructor
      · intro _
        rcases List.any_eq_true.mp hany with ⟨tb, htb, hmv⟩
        exact ⟨tb, htb, (bodyMoved_iff tb).mp hmv⟩
      · intro _
        trivial
    | false =>
      simp only [checkForMovement, hany, Bool.false_eq_true, if_false, hs]
      constructor
      · intro h
        exact absurd h (by simp)
      · rintro ⟨tb, htb, hmv⟩
        have h1 : bodyMoved tb = true := (bodyMoved_iff tb).mpr hmv
        have h2 := List.any_eq_true.mpr ⟨tb, htb, h1⟩
        rw [hany] at h2
        exact absurd h2 (by simp)
  · simp [checkForMovement, displacedScene, bodyMoved_displaced_threshold]
  · intro ε hε
    simp [checkForMovement, displacedScene, bodyMoved_displaced_above ε hε]

theorem movement_check_threshold_witness :
    (displacedScene 0).hasBeenTouched = false ∧
      (0 : ℚ) < 1 ∧
      (checkForMovement (displacedScene (MOVEMENT_THRESHOLD + 1))).hasBeenTouched = true :=
  ⟨rfl, by norm_num, movement_check_threshold.2.2 1 (by norm_num)⟩

/-- C4: after the reset operation, every glyph body sits at its recorded
initial position with zero angle and zero linear and angular velocity, the
touched flag is false, and the reset affordance is hidden. -/
theorem reset_restores_initial_pose (s : Scene) :
    (∀ tb ∈ (resetText s).textBodies,
        tb.px = tb.initialX ∧ tb.py = tb.initialY ∧ tb.angle = 0 ∧
          tb.vx = 0 ∧ tb.vy = 0 ∧ tb.angularVelocity = 0)
    ∧ (resetText s).hasBeenTouched = false
    ∧ (resetText s).showResetButton = false := by
  refine ⟨?_, rfl, rfl⟩
  intro tb htb
  simp only [resetText] at htb
  rcases List.mem_map.mp htb with ⟨a, _, rfl⟩
  simp [resetBody]

theorem reset_restores_initial_pose_witness :
    (resetText (displacedScene 7)).hasBeenTouched = false ∧
      (resetBody (displacedBody 7)).px = (resetBody (displacedBody 7)).initialX :=
  ⟨(reset_restores_initial_pose (displacedScene 7)).2.1,
   ((reset_restores_initial_pose (displacedScene 7)).1 (resetBody (displacedBody 7))
      (by simp [resetText, displacedScene])).1⟩

/-- C9: reset only rewrites poses and velocities: it adds and removes no body,
keeps every glyph body's character, font size, role and recorded initial
position, and leaves the boundary bodies and the pointer proxy unchanged. -/
theorem reset_frame_conditions (s : Scene) :
    (resetText s).walls = s.walls
    ∧ (resetText s).mouseBody = s.mouseBody
    ∧ (resetText s).textBodies.length = s.textBodies.length
    ∧ (∀ i : ℕ,
        (resetText s).textBodies[i]?.map TextBody.char = s.textBodies[i]?.map TextBody.char
        ∧ (resetText s).textBodies[i]?.map TextBody.fontSize =
            s.textBodies[i]?.map TextBody.fontSize
        ∧ (resetText s).textBodies[i]?.map TextBody.isTitle =
            s.textBodies[i]?.map TextBody.isTitle
        ∧ (resetText s).textBodies[i]?.map TextBody.initialX =
            s.textBodies[i]?.map TextBody.initialX
        ∧ (resetText s).textBodies[i]?.map TextBody.initialY =
            s.textBodies[i]?.map TextBody.initialY) := by
  refine ⟨rfl, rfl, by simp [resetText], ?_⟩
  intro i
  simp only [resetText, List.getElem?_map]
  cases s.textBodies[i]? with
  | none => simp
  | some a => simp [resetBody]

/-- C5: on resize, the boundary bodies are always replaced by ones recomputed
for the new canvas width; when the scene is untouched, the glyph bodies are
replaced by freshly computed ones for the new hero rectangle; when the scene
is touched, the glyph bodies (poses, velocities and metadata) are left
exactly as they were. -/
theorem resize_rebuilds (newCanvasWidth heroWidth heroLeft heroTop : ℚ) (s : Scene) :
    (handleResize newCanvasWidth heroWidth heroLeft heroTop s).walls =
      wallBodies newCanvasWidth
    ∧ (s.hasBeenTouched = false →
        (handleResize newCanvasWidth heroWidth heroLeft heroTop s).textBodies =
          createLetterBodiesList heroWidth heroLeft heroTop)
    ∧ (s.hasBeenTouched = true →
        (handleResize newCanvasWidth heroWidth heroLeft heroTop s).textBodies =
          s.textBodies) := by
  cases hb : s.hasBeenTouched with
  | true => simp [handleResize, createWallsScene, createLetterBodiesScene, hb]
  | false => simp [handleResize, createWallsScene, createLetterBodiesScene, hb]

theorem resize_rebuilds_witness :
    ((displacedScene 0).hasBeenTouched = false ∧
        (handleResize 800 600 0 0 (displacedScene 0)).textBodies =
          createLetterBodiesList 600 0 0)
    ∧ (touchedScene.hasBeenTouched = true ∧
        (handleResize 800 600 0 0 touchedScene).textBodies = touchedScene.textBodies) :=
  ⟨⟨rfl, (resize_rebuilds 800 600 0 0 (displacedScene 0)).2.1 rfl⟩,
   ⟨rfl, (resize_rebuilds 800 600 0 0 touchedScene).2.2 rfl⟩⟩

/-- C7: the touched flag is one-way until reset: it is false at scene
creation; the disturbance check can only move it from false to true (a later
check never clears it); no event other than the explicit reset clears it; and
reset always clears it. -/
theorem touched_flag_one_way :
    (∀ cw hw hl ht : ℚ, (initScene cw hw hl ht).hasBeenTouched = false)
    ∧ (∀ s : Scene, (checkForMovement s).hasBeenTouched = false → s.hasBeenTouched = false)
    ∧ (∀ (e : SceneEvent) (s : Scene), e ≠ SceneEvent.reset → s.hasBeenTouched = true →
        (step e s).hasBeenTouched = true)
    ∧ (∀ s : Scene, (step SceneEvent.reset s).hasBeenTouched = false) := by
  refine ⟨fun _ _ _ _ => rfl, ?_, ?_, fun _ => rfl⟩
  · intro s h
    cases hany : s.textBodies.any bodyMoved with
    | true =>
      unfold checkForMovement at h
      rw [hany] at h
      simp at h
    | false =>
      unfold checkForMovement at h
      rw [hany] at h
      simpa using h
  · intro e s hne ht
    cases e with
    | frameCheck =>
      show (checkForMovement s).hasBeenTouched = true
      cases hany : s.textBodies.any bodyMoved with
      | true => simp [checkForMovement, hany]
      | false => simp [checkForMovement, hany, ht]
    | reset => exact absurd rfl hne
    | resize cw hw hl ht' =>
      show (handleResize cw hw hl ht' s).hasBeenTouched = true
      simp [handleResize, createWallsScene, createLetterBodiesScene, ht]
    | pointerMove x y => exact ht

theorem touched_flag_one_way_witness :
    SceneEvent.frameCheck ≠ SceneEvent.reset ∧
      touchedScene.hasBeenTouched = true ∧
      (step SceneEvent.frameCheck touchedScene).hasBeenTouched = true :=
  ⟨by intro h; exact SceneEvent.noConfusion h, rfl,
   touched_flag_one_way.2.2.1 SceneEvent.frameCheck touchedScene
     (by intro h; exact SceneEvent.noConfusion h) rfl⟩

/-- Number of non-space characters of a string. -/
def countNonSpace (s : String) : ℕ :=
  (s.data.filter fun c => !(c == ' ')).length

theorem lineBodiesAux_length (startX charWidth y fontSize : ℚ) (isTitle : Bool) :
    ∀ (i : ℕ) (cs : List Char),
      (lineBodiesAux startX charWidth y fontSize isTitle i cs).length =
        (cs.filter fun c => !(c == ' ')).length := by
  intro i cs
  induction cs generalizing i with
  | nil => rfl
  | cons c cs ih =>
    by_cases h : c = ' '
    · simp [lineBodiesAux, h, ih]
    · simp [lineBodiesAux, h, ih]

theorem lineBodies_length (offsetX y fontSize : ℚ) (isTitle : Bool) (text : String) :
    (lineBodies offsetX y fontSize isTitle text).length = countNonSpace text :=
  lineBodiesAux_length _ _ _ _ _ 0 text.data

theorem lineBodiesAux_eq_enum (startX charWidth y fontSize : ℚ) (isTitle : Bool) :
    ∀ (i : ℕ) (cs : List Char),
      lineBodiesAux startX charWidth y fontSize isTitle i cs =
        (List.enumFrom i cs).filterMap fun p =>
          if p.2 = ' ' then none
          else some (mkLetterBody (startX + (p.1 : ℚ) * charWidth) y p.2 fontSize isTitle) := by
  intro i cs
  induction cs generalizing i with
  | nil => rfl
  | cons c cs ih =>
    by_cases h : c = ' '
    · simp [lineBodiesAux, h, List.enumFrom, ih]
    · simp [lineBodiesAux, h, List.enumFrom, ih]

theorem lineBodiesAux_char_ne_space (startX charWidth y fontSize : ℚ) (isTitle : Bool) :
    ∀ (i : ℕ) (cs : List Char) (b : TextBody),
      b ∈ lineBodiesAux startX charWidth y fontSize isTitle i cs → ¬ b.char = ' ' := by
  intro i cs
  induction cs generalizing i with
  | nil =>
    intro b hb
    simp [lineBodiesAux] at hb
  | cons c cs ih =>
    intro b hb
    by_cases h : c = ' '
    · rw [lineBodiesAux, if_pos h] at hb
      exact ih (i + 1) b hb
    · rw [lineBodiesAux, if_neg h] at hb
      rcases List.mem_cons.mp hb with h1 | h1
      · subst h1
        exact h
      · exact ih (i + 1) b h1

theorem createLetterBodies_mem_char (containerWidth offsetX offsetY : ℚ) :
    ∀ b ∈ createLetterBodiesList containerWidth offsetX offsetY, ¬ b.char = ' ' := by
  intro b hb
  simp only [createLetterBodiesList, List.mem_append] at hb
  rcases hb with (h1 | h1) | h1
  · exact lineBodiesAux_char_ne_space _ _ _ _ _ 0 _ b h1
  · exact lineBodiesAux_char_ne_space _ _ _ _ _ 0 _ b h1
  · rcases List.mem_flatMap.mp h1 with ⟨p, _, hp⟩
    exact lineBodiesAux_char_ne_space _ _ _ _ _ 0 _ b hp

/-- C6: for every container width, the glyph body factory registers exactly
one body per non-space character of the two fixed title lines and of every
wrapped description line; no body is created for a space, yet a space still
advances the cursor: the character walk places the body of the character at
index i at startX + i * charWidth, with the index counting spaces too. -/
theorem glyph_body_count_and_positions (containerWidth offsetX offsetY : ℚ) :
    ((createLetterBodiesList containerWidth offsetX offsetY).length =
      countNonSpace TITLE_LINE1 + countNonSpace TITLE_LINE2 +
        ((getResponsiveConfig containerWidth).descriptionLines.map countNonSpace).sum)
    ∧ (((createLetterBodiesList containerWidth offsetX offsetY).all
        fun b => !(b.char == ' ')) = true)
    ∧ (∀ (startX charWidth y fontSize : ℚ) (isTitle : Bool) (i : ℕ) (cs : List Char),
        lineBodiesAux startX charWidth y fontSize isTitle i cs =
          (List.enumFrom i cs).filterMap fun p =>
            if p.2 = ' ' then none
            else some (mkLetterBody (startX + (p.1 : ℚ) * charWidth) y p.2 fontSize isTitle)) := by
  refine ⟨?_, ?_, fun sX cW y fs t i cs => lineBodiesAux_eq_enum sX cW y fs t i cs⟩
  · simp only [createLetterBodiesList, List.length_append, lineBodies_length]
    have hlen : ((getResponsiveConfig containerWidth).descriptionLines.enum.flatMap fun p =>
        lineBodies offsetX
          (offsetY + 50 + (getResponsiveConfig containerWidth).lineHeight * 2 + 40 +
            (p.1 : ℚ) * (getResponsiveConfig containerWidth).descLineHeight)
          (getResponsiveConfig containerWidth).descFontSize false p.2).length =
        ((getResponsiveConfig containerWidth).descriptionLines.map countNonSpace).sum := by
      rw [List.length_flatMap]
      simp only [Function.comp_def]
      have hmap : ((getResponsiveConfig containerWidth).descriptionLines.enum.map fun p =>
          (lineBodies offsetX
            (offsetY + 50 + (getResponsiveConfig containerWidth).lineHeight * 2 + 40 +
              (p.1 : ℚ) * (getResponsiveConfig containerWidth).descLineHeight)
            (getResponsiveConfig containerWidth).descFontSize false p.2).length) =
          (getResponsiveConfig containerWidth).descriptionLines.enum.map
            fun p => countNonSpace p.2 := by
        apply List.map_congr_left
        intro p _
        exact lineBodies_length _ _ _ _ _
      rw [hmap]
      have hsnd : ((getResponsiveConfig containerWidth).descriptionLines.enum.map
          fun p => countNonSpace p.2) =
          (getResponsiveConfig containerWidth).descriptionLines.map countNonSpace := by
        rw [show (fun p : ℕ × String => countNonSpace p.2) =
          countNonSpace ∘ Prod.snd from rfl]
        rw [← List.map_map, List.enum_map_snd]
      rw [hsnd]
    rw [hlen]
  · rw [List.all_eq_true]
    intro b hb
    have h := createLetterBodies_mem_char containerWidth offsetX offsetY b hb
    simp [h]

/-- Characters matched by the JavaScript regular-expression class for
whitespace. -/
def jsWhitespaceChars : List Char :=
  ['\u0009', '\u000A', '\u000B', '\u000C', '\u000D', '\u0020',
   '\u00A0', '\u1680', '\u2000', '\u2001', '\u2002', '\u2003',
   '\u2004', '\u2005', '\u2006', '\u2007', '\u2008', '\u2009',
   '\u200A', '\u2028', '\u2029', '\u202F', '\u205F', '\u3000',
   '\uFEFF']

/-- A character admitted by the class of non-whitespace, non-at-sign
characters used three times in the e-mail regular expression. -/
def isEmailChar (c : Char) : Bool :=
  !(jsWhitespaceChars.contains c) && !(c == '@')

/-- Matches one or more e-mail-class characters followed by a suffix accepted
by the continuation k, trying every split point (full backtracking, as the
regular-expression engine does). -/
def seqPlusThen (k : List Char → Bool) : List Char → Bool
  | [] => false
  | c :: cs => isEmailChar c && (k cs || seqPlusThen k cs)

/-- Continuation accepting only the end of the string. -/
def matchEnd (r : List Char) : Bool := r.isEmpty

/-- Continuation for the part after the second character class: a literal dot
then one or more e-mail-class characters then the end. -/
def matchDotTail : List Char → Bool
  | c :: r => c == '.' && seqPlusThen matchEnd r
  | [] => false

/-- Continuation for the part after the first character class: a literal at
sign, one or more e-mail-class characters, a dot, one or more e-mail-class
characters, the end. -/
def matchAtTail : List Char → Bool
  | c :: r => c == '@' && seqPlusThen matchDotTail r
  | [] => false

/-- Embedding of the test of the e-mail regular expression of the POST
handler: one or more non-space non-at characters, an at sign, one or more
non-space non-at characters, a dot, one or more non-space non-at characters,
anchored at both ends. -/
def emailRegexTest (s : String) : Bool :=
  seqPlusThen matchAtTail s.data

/-- Declarative reading of the e-mail regular expression: the character list
decomposes as p, an at sign, q, a dot, r, with p, q, r nonempty and made of
non-whitespace, non-at-sign characters. -/
def EmailPattern (s : String) : Prop :=
  ∃ p q r : List Char,
    s.data = p ++ '@' :: (q ++ '.' :: r) ∧
      p ≠ [] ∧ q ≠ [] ∧ r ≠ [] ∧
      (∀ c ∈ p, isEmailChar c = true) ∧
      (∀ c ∈ q, isEmailChar c = true) ∧
      (∀ c ∈ r, isEmailChar c = true)

theorem seqPlusThen_iff (k : List Char → Bool) :
    ∀ cs : List Char,
      seqPlusThen k cs = true ↔
        ∃ p r, cs = p ++ r ∧ p ≠ [] ∧ (∀ c ∈ p, isEmailChar c = true) ∧ k r = true := by
  intro cs
  induction cs with
  | nil =>
    constructor
    · intro h
      simp [seqPlusThen] at h
    · rintro ⟨p, r, heq, hp, -, -⟩
      rcases List.append_eq_nil.mp heq.symm with ⟨h1, -⟩
      exact absurd h1 hp
  | cons c cs ih =>
    constructor
    · intro h
      rw [seqPlusThen, Bool.and_eq_true, Bool.or_eq_true] at h
      rcases h with ⟨hc, hk | hrec⟩
      · refine ⟨[c], cs, rfl, by simp, ?_, hk⟩
        intro x hx
        rcases List.mem_singleton.mp hx with rfl
        exact hc
      · rcases ih.mp hrec with ⟨p, r, heq, -, hall, hk⟩
        refine ⟨c :: p, r, by rw [heq]; rfl, by simp, ?_, hk⟩
        intro x hx
        rcases List.mem_cons.mp hx with rfl | hx2
        · exact hc
        · exact hall x hx2
    · rintro ⟨p, r, heq, hp, hall, hk⟩
      cases p with
      | nil => exact absurd rfl hp
      | cons c' p' =>
        rw [List.cons_append] at heq
        have hc : c = c' := (List.cons.inj heq).1
        have hcs : cs = p' ++ r := (List.cons.inj heq).2
        subst hc
        rw [seqPlusThen, Bool.and_eq_true, Bool.or_eq_true]
        refine ⟨hall c (List.mem_cons_self c p'), ?_⟩
        cases p' with
        | nil =>
          left
          rw [hcs]
          exact hk
        | cons c2 p2 =>
          right
          refine ih.mpr ⟨c2 :: p2, r, hcs, by simp, ?_, hk⟩
          intro x hx
          exact hall x (List.mem_cons_of_mem c hx)

theorem matchEnd_iff (r : List Char) : matchEnd r = true ↔ r = [] := by
  cases r with
  | nil => simp [matchEnd]
  | cons c r => simp [matchEnd]

theorem matchDotTail_iff (r : List Char) :
    matchDotTail r = true ↔
      ∃ r2, r = '.' :: r2 ∧ seqPlusThen matchEnd r2 = true := by
  cases r with
  | nil => simp [matchDotTail]
  | cons c r =>
    rw [matchDotTail, Bool.and_eq_true]
    constructor
    · rintro ⟨hc, hrest⟩
      exact ⟨r, by rw [beq_iff_eq.mp hc], hrest⟩
    · rintro ⟨r2, heq, hrest⟩
      have hc : c = '.' := (List.cons.inj heq).1
      have hr : r = r2 := (List.cons.inj heq).2
      subst hc
      subst hr
      exact ⟨beq_iff_eq.mpr rfl, hrest⟩

theorem matchAtTail_iff (r : List Char) :
    matchAtTail r = true ↔
      ∃ r2, r = '@' :: r2 ∧ seqPlusThen matchDotTail r2 = true := by
  cases r with
  | nil => simp [matchAtTail]
  | cons c r =>
    rw [matchAtTail, Bool.and_eq_true]
    constructor
    · rintro ⟨hc, hrest⟩
      exact ⟨r, by rw [beq_iff_eq.mp hc], hrest⟩
    · rintro ⟨r2, heq, hrest⟩
      have hc : c = '@' := (List.cons.inj heq).1
      have hr : r = r2 := (List.cons.inj heq).2
      subst hc
      subst hr
      exact ⟨beq_iff_eq.mpr rfl, hrest⟩

theorem emailRegexTest_iff (s : String) :
    emailRegexTest s = true ↔ EmailPattern s := by
  unfold emailRegexTest EmailPattern
  rw [seqPlusThen_iff]
  constructor
  · rintro ⟨p, rest, heq, hp, hallp, hat⟩
    rcases (matchAtTail_iff rest).mp hat with ⟨r2, hr2, hdom⟩
    rcases (seqPlusThen_iff matchDotTail r2).mp hdom with ⟨q, rest2, hq2, hq, hallq, hdot⟩
    rcases (matchDotTail_iff rest2).mp hdot with ⟨r3, hr3, hend⟩
    rcases (seqPlusThen_iff matchEnd r3).mp hend with ⟨r4, rest4, hr4, hr, hallr, hmt⟩
    have hrest4 : rest4 = [] := (matchEnd_iff rest4).mp hmt
    subst hrest4
    refine ⟨p, q, r4, ?_, hp, hq, hr, hallp, hallq, hallr⟩
    rw [heq, hr2, hq2, hr3, hr4]
    simp
  · rintro ⟨p, q, r, heq, hp, hq, hr, hallp, hallq, hallr⟩
    refine ⟨p, '@' :: (q ++ '.' :: r), heq, hp, hallp, ?_⟩
    apply (matchAtTail_iff _).mpr
    refine ⟨q ++ '.' :: r, rfl, ?_⟩
    apply (seqPlusThen_iff matchDotTail _).mpr
    refine ⟨q, '.' :: r, rfl, hq, hallq, ?_⟩
    apply (matchDotTail_iff _).mpr
    refine ⟨r, rfl, ?_⟩
    apply (seqPlusThen_iff matchEnd r).mpr
    exact ⟨r, [], by simp, hr, hallr, (matchEnd_iff []).mpr rfl⟩

/-- A JavaScript value as far as the POST handler inspects it: the extracted
email field of the parsed request body (undef models a missing field). -/
inductive JsValue where
  | undef
  | null
  | boolean (b : Bool)
  | num (q : ℚ)
  | str (s : String)
  | obj
  | arr
deriving DecidableEq

/-- JavaScript falsiness of the modelled values. -/
def jsFalsy : JsValue → Bool
  | JsValue.undef => true
  | JsValue.null => true
  | JsValue.boolean b => !b
  | JsValue.num q => decide (q = 0)
  | JsValue.str s => s == ""
  | JsValue.obj => false
  | JsValue.arr => false

/-- JavaScript typeof-string test. -/
def jsIsString : JsValue → Bool
  | JsValue.str _ => true
  | _ => false

/-- Observable outcome of the subscription POST handler: the response status
and whether contact creation was attempted. -/
structure SubscribeResult where
  status : ℕ
  attemptedCreate : Bool
deriving DecidableEq

/-- Embedding of the subscription POST route: a falsy or non-string email
field yields 400 before any contact creation; an email failing the regular
expression yields 400 before any contact creation; otherwise contact creation
is attempted, answering 500 on a creation error and 200 on success. -/
def POST (email : JsValue) (resendError : Bool) : SubscribeResult :=
  if jsFalsy email || !(jsIsString email) then
    { status := 400, attemptedCreate := false }
  else
    match email with
    | JsValue.str s =>
      if !(emailRegexTest s) then { status := 400, attemptedCreate := false }
      else if resendError then { status := 500, attemptedCreate := true }
      else { status := 200, attemptedCreate := true }
    | _ => { status := 400, attemptedCreate := false }

/-- The concrete address with no dot in its domain part. -/
def A_AT_B : String := "a@b"

theorem emailRegexTest_a_at_b : emailRegexTest A_AT_B = false := by decide

/-- C10: the subscription POST handler returns 400 without attempting contact
creation whenever the email field is missing, not a string, or fails the
pattern of one-or-more non-space non-at characters, an at sign, non-space
non-at characters, a dot, non-space non-at characters; in particular the
address with a dotless domain part is rejected; contact creation is attempted
only for an email matching the pattern. -/
theorem post_validates_email (email : JsValue) (resendError : Bool) :
    ((email = JsValue.undef ∨ (∀ s, email ≠ JsValue.str s) ∨
        (∃ s, email = JsValue.str s ∧ ¬ EmailPattern s)) →
      (POST email resendError).status = 400 ∧
        (POST email resendError).attemptedCreate = false)
    ∧ ((POST email resendError).attemptedCreate = true →
        ∃ s, email = JsValue.str s ∧ EmailPattern s)
    ∧ (POST (JsValue.str A_AT_B) resendError).status = 400
    ∧ (POST (JsValue.str A_AT_B) resendError).attemptedCreate = false := by
  have hab : (A_AT_B == "") = false := by decide
  have habPost : POST (JsValue.str A_AT_B) resendError =
      { status := 400, attemptedCreate := false } := by
    simp [POST, jsFalsy, jsIsString, hab, emailRegexTest_a_at_b]
  refine ⟨?_, ?_, by rw [habPost], by rw [habPost]⟩
  · intro h
    cases email with
    | str s =>
      have hnp : ¬ EmailPattern s := by
        rcases h with h1 | h1 | h1
        · exact absurd h1 (by intro hh; exact JsValue.noConfusion hh)
        · exact absurd rfl (h1 s)
        · rcases h1 with ⟨s', hs', hnp⟩
          rcases JsValue.str.inj hs' with rfl
          exact hnp
      have hreg : emailRegexTest s = false := by
        cases hr : emailRegexTest s
        · rfl
        · exact absurd ((emailRegexTest_iff s).mp hr) hnp
      by_cases hse : s = ""
      · subst hse
        exact ⟨rfl, rfl⟩
      · have hse2 : (s == "") = false := beq_eq_false_iff_ne.mpr hse
        constructor
        · simp [POST, jsFalsy, jsIsString, hse2, hreg]
        · simp [POST, jsFalsy, jsIsString, hse2, hreg]
    | undef => exact ⟨rfl, rfl⟩
    | null => exact ⟨rfl, rfl⟩
    | boolean b => cases b <;> exact ⟨rfl, rfl⟩
    | num q =>
      constructor
      · simp [POST, jsFalsy, jsIsString]
      · simp [POST, jsFalsy, jsIsString]
    | obj => exact ⟨rfl, rfl⟩
    | arr => exact ⟨rfl, rfl⟩
  · intro h
    cases email with
    | str s =>
      by_cases hse : s = ""
      · subst hse
        simp [POST, jsFalsy, jsIsString] at h
      · have hse2 : (s == "") = false := beq_eq_false_iff_ne.mpr hse
        cases hr : emailRegexTest s with
        | false => simp [POST, jsFalsy, jsIsString, hse2, hr] at h
        | true => exact ⟨s, rfl, (emailRegexTest_iff s).mp hr⟩
    | undef => simp [POST, jsFalsy, jsIsString] at h
    | null => simp [POST, jsFalsy, jsIsString] at h
    | boolean b => cases b <;> simp [POST, jsFalsy, jsIsString] at h
    | num q => simp [POST, jsFalsy, jsIsString] at h
    | obj => simp [POST, jsFalsy, jsIsString] at h
    | arr => simp [POST, jsFalsy, jsIsString] at h

theorem post_validates_email_witness :
    (POST JsValue.undef false).status = 400 ∧
      (POST JsValue.undef false).attemptedCreate = false :=
  (post_validates_email JsValue.undef false).1 (Or.inl rfl)

end Me
